import Mathlib

/-!
Verification of the Monterey-Sports-Cards pricing core.

Shallow embedding of `src/helpers_v10.py` and `src/pricing/pricing_engine.py`.
Strings are lists of characters; Python floats are embedded as rationals, with
`round(x, 2)` modelled as exact round-half-to-even on ℚ.  Regular expressions
are embedded as direct character scanners implementing the leftmost/greedy
semantics of the concrete patterns appearing in the source.  Character classes
are ASCII approximations of Python's unicode classes (`\d` is `0`-`9`, `\w` is
ASCII alphanumeric or underscore, `\s` is the six ASCII whitespace characters).

The rule tables (`token_rules.json`, `set_phrases.json`, `brand_families.json`)
are data files produced by out-of-scope mining tools and are not part of the
source tree; the code loads them with explicit missing-file defaults
(`helpers_v10.TOKEN_RULES` fallback dict, empty `SET_PHRASES`, empty
`BRAND_FAMILIES`, empty `SET_PHRASE_INDEX`).  All table-dependent definitions
below are instantiated at exactly those in-code defaults.
-/

/-- Python strings are modelled as lists of characters. -/
abbrev Str := List Char

/-- Python substring test, the `in` operator on `str`. -/
def substrB (needle : Str) : Str → Bool
  | [] => needle.isEmpty
  | c :: t => needle.isPrefixOf (c :: t) || substrB needle t

/-- Python `str.lower()` (ASCII approximation, as everywhere in this file). -/
def lowerStr (s : Str) : Str := s.map Char.toLower

/-- Hard-exclude keyword list `HARD_EXCLUDE` of `helpers_v10.py`. -/
def HARD_EXCLUDE : List Str :=
  ["refractor".data, "xfractor".data, "pulsar".data, "mojo".data, "wave".data,
   "cracked ice".data, "atomic".data, "prism".data, "prizm".data,
   "serial".data, "#/".data, "/".data, "foilboard".data,
   "psa".data, "bgs".data, "sgc".data, "graded".data,
   "lot".data, "set of".data, "bundle".data, "collection".data]

/-- Soft-exclude (color/finish) keyword list `SOFT_EXCLUDE` of `helpers_v10.py`. -/
def SOFT_EXCLUDE : List Str :=
  ["gold".data, "black".data, "blue".data, "green".data, "red".data, "silver".data,
   "rainbow".data, "holo".data, "foil".data, "purple".data, "orange".data,
   "pink".data, "lime".data, "aqua".data, "teal".data]

/-- Embedding of `helpers_v10.is_serial_numbered`. -/
def is_serial_numbered (t : Str) : Bool :=
  substrB "/".data t || substrB "#/".data t

/-- Embedding of `helpers_v10.comp_matches_parallel_type`. -/
def comp_matches_parallel_type (user_title comp_title : Str) : Bool :=
  let u := lowerStr user_title
  let c := lowerStr comp_title
  if substrB "chrome".data u then
    if !substrB "chrome".data c then false
    else if SOFT_EXCLUDE.any (fun w => substrB w c && !substrB w u) then false
    else if substrB "refractor".data c && !substrB "refractor".data u then false
    else true
  else if substrB "chrome".data c && !substrB "chrome".data u then false
  else if !(SOFT_EXCLUDE.any (fun w => substrB w u)) &&
          SOFT_EXCLUDE.any (fun w => substrB w c) then false
  else if is_serial_numbered c && !is_serial_numbered u then false
  else if SOFT_EXCLUDE.any (fun w => substrB w u && !substrB w c) then false
  else true

/-- Embedding of `helpers_v10.comp_price_sane`.  The two tier conditions are
mutually exclusive in the source (a base title has no "chrome"), so the
sequential early returns collapse to this chain. -/
def comp_price_sane (user_title : Str) (comp_price : ℚ) : Bool :=
  let title := lowerStr user_title
  let is_base := !substrB "chrome".data title && !substrB "refractor".data title &&
    !(SOFT_EXCLUDE.any (fun w => substrB w title))
  if is_base && comp_price > 299/100 then false
  else if substrB "chrome".data title && !substrB "refractor".data title &&
          !(SOFT_EXCLUDE.any (fun w => substrB w title)) && comp_price > 399/100 then false
  else if comp_price > 100 then false
  else true

/-- Embedding of `helpers_v10.safe_hybrid_filter`. -/
def safe_hybrid_filter (user_title comp_title : Str) (comp_price : ℚ) : Bool :=
  let t1 := lowerStr user_title
  let t2 := lowerStr comp_title
  if HARD_EXCLUDE.any (fun w => substrB w t2) &&
     !(substrB "refractor".data t2 && substrB "chrome".data t1 &&
       substrB "refractor".data t1) then false
  else if !comp_matches_parallel_type t1 t2 then false
  else if !comp_price_sane t1 comp_price then false
  else true

/-- Claim C10: a comp whose title contains the character `/` (every
serial-numbered comp) with price at least 10 is rejected by the safe-hybrid
filter unless the comp title contains "refractor" and the subject title
contains both "chrome" and "refractor"; in particular a comp whose serial
fragment exactly equals the subject's, and comps sharing any other
hard-exclude keyword that the subject also declares (both "prizm" here), are
still rejected at this stage. -/
theorem c10_slash_hard_exclude :
    (∀ (t1 t2 : Str) (p : ℚ),
       substrB "/".data (lowerStr t2) = true →
       10 ≤ p →
       ¬ (substrB "refractor".data (lowerStr t2) = true ∧
          substrB "chrome".data (lowerStr t1) = true ∧
          substrB "refractor".data (lowerStr t1) = true) →
       safe_hybrid_filter t1 t2 p = false) ∧
    safe_hybrid_filter "topps cruz 12/99".data "topps cruz 12/99".data 12 = false ∧
    safe_hybrid_filter "prizm cruz".data "prizm cruz".data 15 = false := by
  refine ⟨?_, by decide, by decide⟩
  intro t1 t2 p hslash _hp hex
  unfold safe_hybrid_filter
  have hany : HARD_EXCLUDE.any (fun w => substrB w (lowerStr t2)) = true := by
    apply List.any_eq_true.mpr
    exact ⟨"/".data, by decide, hslash⟩
  have hexb : (substrB "refractor".data (lowerStr t2) &&
      (substrB "chrome".data (lowerStr t1) && substrB "refractor".data (lowerStr t1))) = false :=
    Bool.eq_false_iff.mpr (by simpa [Bool.and_eq_true, and_assoc] using hex)
  simp only [hany, Bool.true_and, Bool.and_assoc, hexb]
  simp

/-- Witness for C10: a concrete serial-numbered comp with no refractor
exception is rejected. -/
theorem c10_slash_hard_exclude_witness :
    safe_hybrid_filter "cruz base".data "cruz 1/5".data 12 = false :=
  c10_slash_hard_exclude.1 "cruz base".data "cruz 1/5".data 12 (by decide)
    (by norm_num) (by decide)

/-!
Pricing engine (`pricing_engine.py`, lines 2493-2624).  Python floats are
embedded as rationals and `round(x, 2)` as exact round-half-to-even to a
multiple of `1/100`.  `PRICE_FLOOR = 1.50` and `LOWEST_ACTIVE_AVG_K = 5` are
the module constants; `MAX_DROP_PERCENT = 40`, `HIGH_PRICE_THRESHOLD = 4.99`
and `HIGH_PRICE_FLOOR = 3.49` are the locals of `get_price_strict`.
-/

/-- Python `round(x, 2)`: round to a multiple of `1/100`, ties to even. -/
def roundHE2 (q : ℚ) : ℚ :=
  let n : ℤ := Int.floor (q * 100)
  let frac := q * 100 - (n : ℚ)
  let r : ℤ :=
    if frac < 1/2 then n
    else if 1/2 < frac then n + 1
    else if n % 2 = 0 then n else n + 1
  (r : ℚ) / 100

/-- Python `sorted` on a list of prices (any sorting function is extensionally
the same on a linearly ordered type). -/
def sortQ (l : List ℚ) : List ℚ := List.insertionSort (· ≤ ·) l

/-- Embedding of `pricing_engine._median` (the input lists contain no `None`,
so the source's `None` filter is vacuous). -/
def _median (values : List ℚ) : Option ℚ :=
  let vals := sortQ values
  if vals.isEmpty then none
  else
    let n := vals.length
    let mid := n / 2
    some (roundHE2 (if n % 2 = 1 then vals.getD mid 0
                    else (vals.getD (mid - 1) 0 + vals.getD mid 0) / 2))

/-- The ending palette of `pricing_engine._human_round`. -/
def ENDINGS : List ℚ :=
  [0, 5/100, 9/100, 10/100, 15/100, 19/100, 20/100, 25/100, 29/100,
   30/100, 35/100, 39/100, 40/100, 45/100, 49/100, 50/100, 55/100, 59/100,
   60/100, 65/100, 69/100, 70/100, 75/100, 79/100, 80/100, 85/100, 89/100,
   90/100, 95/100, 99/100]

/-- Python `min(endings, key=lambda e: abs(e - cents))`: the first element of
minimal distance wins, modelled by a strict-improvement fold from the head. -/
def pickMin (c : ℚ) : List ℚ → ℚ
  | [] => 0
  | e :: rest => rest.foldl (fun best x => if |x - c| < |best - c| then x else best) e

/-- Embedding of `pricing_engine._human_round`. -/
def human_round (value : ℚ) : ℚ :=
  let whole : ℤ := Int.floor value
  let cents := value - (whole : ℚ)
  roundHE2 ((whole : ℚ) + pickMin cents ENDINGS)

/-- Positive-value cleaning loop of `get_price_strict` (`fv > 0`). -/
def cleanPos (l : List ℚ) : List ℚ := l.filter (fun v => 0 < v)

/-- Lowest-K slice of the cleaned, ascending actives (`K = 5`). -/
def lowestK (l : List ℚ) : List ℚ :=
  let s := sortQ (cleanPos l)
  s.take (min 5 s.length)

/-- The active-side statistic of `get_price_strict` (lines 2529-2546). -/
def medianActive (l : List ℚ) : Option ℚ :=
  if (cleanPos l).isEmpty then none else _median (lowestK l)

/-- The `" | "` join of the note parts (line 2623). -/
def joinNotes (parts : List String) : String :=
  if parts.isEmpty then "" else String.intercalate " | " parts

/-- Result quadruple of `get_price_strict`. -/
structure PriceResult where
  median_sold : Option ℚ
  median_active : Option ℚ
  suggested : Option ℚ
  note : String
deriving DecidableEq

/-- The price-safe layer of `get_price_strict` (lines 2603-2621), entered with
a known positive current price `cp`. -/
def price_safe (s2 cp : ℚ) (notes : List String) : ℚ × List String :=
  let m := roundHE2 (cp * (1 - 40/100))
  let s3 := if s2 < m then m else s2
  let n3 := notes ++ (if s2 < m then ["Drop capped 40% vs current"] else [])
  let s4 := if 499/100 ≤ cp ∧ s3 < 349/100 then (349/100 : ℚ) else s3
  let n4 := n3 ++ (if 499/100 ≤ cp ∧ s3 < 349/100 then ["High-price floor clamp"] else [])
  let s5 := if s4 < 3/2 then (3/2 : ℚ) else s4
  let n5 := n4 ++ (if s4 < 3/2 ∧ "Floor clamp" ∉ n4 then ["Floor clamp"] else [])
  (s5, n5)

/-- Tail of `get_price_strict` after the primary source is chosen (lines
2589-2624): human rounding, absolute floor, optional price-safe layer, final
`round(…, 2)` and note join. -/
def price_tail (median_sold median_active : Option ℚ) (notes : List String)
    (s0 : ℚ) (src : String) (current_price : Option ℚ) : PriceResult :=
  let notes1 := notes ++ [src]
  let s1 := human_round s0
  let s2 := if s1 < 3/2 then (3/2 : ℚ) else s1
  let notes2 := notes1 ++ (if s1 < 3/2 then ["Floor clamp"] else [])
  match current_price with
  | none => ⟨median_sold, median_active, some (roundHE2 s2), joinNotes notes2⟩
  | some cp =>
    if 0 < cp then
      let r := price_safe s2 cp notes2
      ⟨median_sold, median_active, some (roundHE2 r.1), joinNotes r.2⟩
    else ⟨median_sold, median_active, some (roundHE2 s2), joinNotes notes2⟩

/-- Primary-source selection of `get_price_strict` (lines 2576-2587): active
median first, sold median second, otherwise the `"No data"` quadruple. -/
def price_core (median_sold median_active : Option ℚ) (notes : List String)
    (current_price : Option ℚ) : PriceResult :=
  match median_active with
  | some ma => price_tail median_sold median_active notes ma "Active median A2" current_price
  | none =>
    match median_sold with
    | some ms => price_tail median_sold median_active notes ms "Sold median A2" current_price
    | none => ⟨none, none, none, "No data"⟩

/-- Embedding of `pricing_engine.get_price_strict`.  A `current_price` that is
`None` in Python is `none` here; a non-positive current price skips the
price-safe layer exactly as in the source. -/
def get_price_strict (active_totals sold_totals : List ℚ)
    (current_price : Option ℚ) : PriceResult :=
  let act_values := cleanPos active_totals
  let ma := medianActive active_totals
  let notesA : List String :=
    if act_values.isEmpty then []
    else ["Active(A2,k=" ++ toString (min 5 act_values.length) ++ ")"]
  let sold_values := cleanPos sold_totals
  let ms0 : Option ℚ := if sold_values.isEmpty then none else _median (sortQ sold_values)
  let notesS := notesA ++
    (if sold_values.isEmpty then []
     else ["Sold(A2,n=" ++ toString sold_values.length ++ ")"])
  let guardFires : Bool :=
    match ms0, ma with
    | some msv, some mav => decide (sold_values.length ≤ 3) && decide (2 * mav < msv)
    | _, _ => false
  let ms := if guardFires then none else ms0
  let notesG := notesS ++ (if guardFires then ["Sold dropped (>> actives w/low N)"] else [])
  price_core ms ma notesG current_price

/-- A rational that is a whole number of cents. -/
def CentMult (q : ℚ) : Prop := ∃ k : ℤ, q = (k : ℚ) / 100

theorem roundHE2_cent (q : ℚ) : CentMult (roundHE2 q) := ⟨_, rfl⟩

theorem roundHE2_fix {q : ℚ} (h : CentMult q) : roundHE2 q = q := by
  obtain ⟨k, rfl⟩ := h
  unfold roundHE2
  have hx : ((k : ℚ) / 100) * 100 = (k : ℚ) := by field_simp
  rw [hx]
  norm_num [Int.floor_intCast]

theorem human_round_cent (v : ℚ) : CentMult (human_round v) := ⟨_, rfl⟩

theorem price_safe_fst_ge_floor (s2 cp : ℚ) (notes : List String) :
    3/2 ≤ (price_safe s2 cp notes).1 := by
  simp only [price_safe]
  split_ifs <;> linarith

theorem price_safe_fst_ge_drop (s2 cp : ℚ) (notes : List String) :
    roundHE2 (cp * (1 - 40/100)) ≤ (price_safe s2 cp notes).1 := by
  simp only [price_safe]
  split_ifs <;> linarith

theorem price_safe_fst_cent (s2 cp : ℚ) (notes : List String) (h : CentMult s2) :
    CentMult (price_safe s2 cp notes).1 := by
  have hm : CentMult (roundHE2 (cp * (1 - 40/100))) := roundHE2_cent _
  have h349 : CentMult ((349 : ℚ)/100) := ⟨349, by norm_num⟩
  have h150 : CentMult ((3 : ℚ)/2) := ⟨150, by norm_num⟩
  simp only [price_safe]
  split_ifs <;> assumption

theorem price_tail_bounds (ms ma : Option ℚ) (notes : List String) (s0 : ℚ)
    (src : String) (cp s : ℚ) (hcp : 0 < cp)
    (hs : (price_tail ms ma notes s0 src (some cp)).suggested = some s) :
    3/2 ≤ s ∧ roundHE2 (cp * (1 - 40/100)) ≤ s := by
  simp only [price_tail, if_pos hcp] at hs
  set s2 := if human_round s0 < 3/2 then (3/2 : ℚ) else human_round s0 with hs2
  have hcent : CentMult s2 := by
    rw [hs2]
    split_ifs
    · exact ⟨150, by norm_num⟩
    · exact human_round_cent s0
  have hfix := roundHE2_fix (price_safe_fst_cent s2 cp
    ((notes ++ [src]) ++ if human_round s0 < 3/2 then ["Floor clamp"] else []) hcent)
  rw [hfix] at hs
  obtain rfl : _ = s := Option.some.injEq _ _ ▸ hs
  exact ⟨price_safe_fst_ge_floor _ _ _, price_safe_fst_ge_drop _ _ _⟩

theorem price_core_bounds (ms ma : Option ℚ) (notes : List String) (cp s : ℚ)
    (hcp : 0 < cp)
    (hs : (price_core ms ma notes (some cp)).suggested = some s) :
    3/2 ≤ s ∧ roundHE2 (cp * (1 - 40/100)) ≤ s := by
  rcases ma with _ | a
  · rcases ms with _ | m
    · simp [price_core] at hs
    · exact price_tail_bounds _ _ _ _ _ _ _ hcp hs
  · exact price_tail_bounds _ _ _ _ _ _ _ hcp hs

/-- Claim C2 (amended): for every call with `current_price > 0` that returns a
non-None suggested price, the suggestion is never below the absolute price
floor 1.50, and never below the cent-rounded 40-percent-drop floor
`round(current_price * 0.6, 2)` — which can itself lie up to half a cent
below the exact 40-percent line, so the exact bound of the original claim
fails (see the counterexample). -/
theorem c2_clamp_bounds (active sold : List ℚ) (cp s : ℚ) (hcp : 0 < cp)
    (hs : (get_price_strict active sold (some cp)).suggested = some s) :
    3/2 ≤ s ∧ roundHE2 (cp * (1 - 40/100)) ≤ s := by
  simp only [get_price_strict] at hs
  exact price_core_bounds _ _ _ cp s hcp hs

/-- Counterexample for C2: with one active comp at 2.00 and current price
10.02, the engine suggests 6.01, which is strictly below the exact
40-percent-drop line 6.012 — a drop of just over 40 percent. -/
theorem c2_counterexample :
    (get_price_strict [2] [] (some (1002/100))).suggested = some (601/100) ∧
    (601/100 : ℚ) < (1002/100) * (1 - 40/100) := by
  constructor
  · norm_num [get_price_strict, medianActive, cleanPos, lowestK, sortQ, _median,
      price_core, price_tail, price_safe, human_round, roundHE2, pickMin, ENDINGS,
      List.insertionSort, List.orderedInsert, List.foldl, abs]
  · norm_num

/-- Witness for C2 at a concrete call. -/
theorem c2_clamp_bounds_witness :
    (3/2 : ℚ) ≤ 601/100 ∧ roundHE2 ((1002/100) * (1 - 40/100)) ≤ 601/100 :=
  c2_clamp_bounds [2] [] (1002/100) (601/100) (by norm_num)
    (by norm_num [get_price_strict, medianActive, cleanPos, lowestK, sortQ, _median,
      price_core, price_tail, price_safe, human_round, roundHE2, pickMin, ENDINGS,
      List.insertionSort, List.orderedInsert, List.foldl, abs])

/-- Counterexample for C1: on active prices `[2.00, 2.25, 2.50, 2.75, 3.00,
3.25]`, no solds and current price 5.00, the engine's final suggestion is
3.49, not the 3.00 stated by the claim: the high-price floor (current
5.00 ≥ 4.99) lifts the drop-capped 3.00 up to 3.49. -/
theorem c1_counterexample :
    (get_price_strict [2, 9/4, 5/2, 11/4, 3, 13/4] [] (some 5)).suggested = some (349/100) ∧
    (get_price_strict [2, 9/4, 5/2, 11/4, 3, 13/4] [] (some 5)).suggested ≠ some 3 := by
  have h : (get_price_strict [2, 9/4, 5/2, 11/4, 3, 13/4] [] (some 5)).suggested
      = some (349/100) := by
    norm_num [get_price_strict, medianActive, cleanPos, lowestK, sortQ, _median,
      price_core, price_tail, price_safe, human_round, roundHE2, pickMin, ENDINGS,
      List.insertionSort, List.orderedInsert, List.foldl, abs]
  refine ⟨h, ?_⟩
  rw [h]
  intro hc
  have := Option.some.injEq (349/100 : ℚ) 3 ▸ hc
  norm_num at this

/-- Claim C1 (amended): in the scenario of the claim the lowest-5 active
median is 2.50 and the note records the drop cap, but the final suggestion is
3.49: the 40-percent drop cap first lifts 2.50 to 3.00 (note "Drop capped 40%
vs current"), then the high-price floor (current 5.00 ≥ threshold 4.99) lifts
it to 3.49. -/
theorem c1_scenario :
    (get_price_strict [2, 9/4, 5/2, 11/4, 3, 13/4] [] (some 5)).median_active = some (5/2) ∧
    (get_price_strict [2, 9/4, 5/2, 11/4, 3, 13/4] [] (some 5)).suggested = some (349/100) ∧
    substrB "Drop capped".data
      (get_price_strict [2, 9/4, 5/2, 11/4, 3, 13/4] [] (some 5)).note.data = true := by
  have h : get_price_strict [2, 9/4, 5/2, 11/4, 3, 13/4] [] (some 5) =
      ⟨none, some (5/2), some (349/100),
       "Active(A2,k=5) | Active median A2 | Drop capped 40% vs current | High-price floor clamp"⟩ := by
    norm_num [get_price_strict, medianActive, cleanPos, lowestK, sortQ, _median,
      price_core, price_tail, price_safe, human_round, roundHE2, pickMin, ENDINGS,
      List.insertionSort, List.orderedInsert, List.foldl, abs, joinNotes]
    all_goals decide
  rw [h]
  refine ⟨rfl, rfl, by decide⟩

theorem take_orderedInsert_of_lt (x : ℚ) :
    ∀ (s : List ℚ) (n : ℕ), n ≤ s.length → (∀ y ∈ s.take n, y < x) →
      (List.orderedInsert (· ≤ ·) x s).take n = s.take n := by
  intro s
  induction s with
  | nil =>
    intro n hn _
    have h0 : n = 0 := by simpa using hn
    subst h0
    simp
  | cons a t ih =>
    intro n hn hy
    match n with
    | 0 => simp
    | Nat.succ m =>
      have ha : a < x := hy a (by simp)
      have hle : ¬ (x ≤ a) := not_le.mpr ha
      rw [List.orderedInsert, if_neg hle]
      simp only [List.take_succ_cons]
      rw [ih m (by simpa using hn)]
      intro y hmem
      exact hy y (by simp [hmem])

theorem sortQ_append_singleton (l : List ℚ) (x : ℚ) :
    sortQ (l ++ [x]) = List.orderedInsert (· ≤ ·) x (sortQ l) := by
  have hperm : List.Perm (sortQ (l ++ [x])) (List.orderedInsert (· ≤ ·) x (sortQ l)) := by
    refine ((List.perm_insertionSort _ _).trans ?_).trans
      (List.perm_orderedInsert _ x (sortQ l)).symm
    exact (List.perm_append_singleton x l).trans ((List.perm_insertionSort _ l).symm.cons x)
  exact List.eq_of_perm_of_sorted hperm (List.sorted_insertionSort _ _)
    ((List.sorted_insertionSort _ l).orderedInsert x _)

theorem sortQ_length (l : List ℚ) : (sortQ l).length = l.length :=
  (List.perm_insertionSort _ l).length_eq

/-- Claim C6 (amended): once at least `K = 5` positive active prices are
present, adding a new active price strictly greater than all of the lowest-5
prices leaves the computed active median unchanged.  (With fewer than 5
cleaned actives the added price enters the lowest-K slice and the claim as
stated fails — see the counterexample.) -/
theorem c6_lowestK_median_stable (l : List ℚ) (x : ℚ)
    (h5 : 5 ≤ (cleanPos l).length) (hx : ∀ y ∈ lowestK l, y < x) :
    medianActive (l ++ [x]) = medianActive l := by
  have hlen : (sortQ (cleanPos l)).length = (cleanPos l).length := sortQ_length _
  have hmin : min 5 (sortQ (cleanPos l)).length = 5 := by omega
  have hne : (cleanPos l) ≠ [] := by
    intro he
    rw [he] at h5
    simp at h5
  have hx0 : 0 < x := by
    have hlen5 : (lowestK l).length = 5 := by
      simp only [lowestK, List.length_take]
      omega
    have hlnn : lowestK l ≠ [] := by
      intro he
      rw [he] at hlen5
      simp at hlen5
    obtain ⟨y, hy⟩ := List.exists_mem_of_ne_nil _ hlnn
    have hy2 : y ∈ cleanPos l :=
      ((List.perm_insertionSort _ (cleanPos l)).mem_iff).mp (List.take_subset _ _ hy)
    have h0 : 0 < y := by simpa using List.of_mem_filter hy2
    exact lt_trans h0 (hx _ hy)
  have hclean : cleanPos (l ++ [x]) = cleanPos l ++ [x] := by
    simp [cleanPos, List.filter_append, hx0]
  have hlow : lowestK (l ++ [x]) = lowestK l := by
    simp only [lowestK, hclean, sortQ_append_singleton]
    have hlen2 : (List.orderedInsert (· ≤ ·) x (sortQ (cleanPos l))).length =
        (cleanPos l).length + 1 := by
      have := (List.perm_orderedInsert (· ≤ ·) x (sortQ (cleanPos l))).length_eq
      simp only [List.length_cons, hlen] at this
      exact this
    rw [hlen2, hlen]
    have hmin2 : min 5 ((cleanPos l).length + 1) = 5 := by omega
    have hmin3 : min 5 (cleanPos l).length = 5 := by omega
    rw [hmin2, hmin3]
    apply take_orderedInsert_of_lt
    · omega
    · intro y hy
      apply hx
      simpa [lowestK, hlen, hmin3] using hy
  have hne2 : cleanPos (l ++ [x]) ≠ [] := by
    rw [hclean]
    simp
  simp only [medianActive, hlow]
  rw [if_neg (by simpa using hne2), if_neg (by simpa using hne)]

/-- Counterexample for C6: with a single active price 1.00, the price 100.00
is strictly greater than every lowest-K price, yet adding it moves the
computed active median from 1.00 to 50.50. -/
theorem c6_counterexample :
    (∀ y ∈ lowestK [1], y < 100) ∧
    medianActive [1] = some 1 ∧
    medianActive ([1] ++ [100]) = some (101/2) ∧
    (101/2 : ℚ) ≠ 1 := by
  refine ⟨?_, ?_, ?_, by norm_num⟩ <;>
    norm_num [lowestK, medianActive, cleanPos, sortQ, _median, roundHE2,
      List.insertionSort, List.orderedInsert]

/-- Witness for C6 at a concrete list with five cleaned actives. -/
theorem c6_lowestK_median_stable_witness :
    medianActive ([1, 2, 3, 4, 5, 6] ++ [10]) = medianActive [1, 2, 3, 4, 5, 6] :=
  c6_lowestK_median_stable [1, 2, 3, 4, 5, 6] 10
    (by norm_num [cleanPos])
    (by norm_num [lowestK, cleanPos, sortQ, List.insertionSort, List.orderedInsert])

/-!
Normalizer (`helpers_v10.NORMALIZATION_TABLE` and `normalize_title_global`,
lines 70-93).  `token_rules.json` is absent, so the injected part of the table
is empty and the five built-in rules apply in order: `\bsky[\s\-]*box\b` →
"skybox", `\be[\s\-]*motion\b` → "e motion", `\btopps? chrome\b` →
"topps chrome", `\btopps? finest\b` → "topps finest", `[^a-z0-9]+` → " ";
then `\s+` → " " and `strip()`.  Each `re.sub` is embedded as a left-to-right
scanner that keeps the previous original character for `\b` tests and replaces
non-overlapping matches.
-/

/-- Python `\w` (ASCII approximation). -/
def isWordChar (c : Char) : Bool := c.isAlphanum || c = '_'

/-- Python `\s` (ASCII whitespace). -/
def isWSChar (c : Char) : Bool :=
  c = ' ' || c = '\t' || c = '\n' || c = '\r' || c = '\x0b' || c = '\x0c'

/-- A character of the class `[\s\-]`. -/
def isSepChar (c : Char) : Bool := isWSChar c || c = '-'

/-- The class `[a-z0-9]` of the punctuation rule. -/
def isLowerAlnum (c : Char) : Bool := ('a' ≤ c && c ≤ 'z') || ('0' ≤ c && c ≤ '9')

/-- A `\b` before a word character: start of string or a non-word predecessor. -/
def boundaryB : Option Char → Bool
  | none => true
  | some c => !isWordChar c

/-- A `\b` after a word character: end of string or a non-word successor. -/
def endBoundaryB : List Char → Bool
  | [] => true
  | c :: _ => !isWordChar c

/-- Drop a literal prefix, if present. -/
def dropLit (lit s : List Char) : Option (List Char) :=
  if lit.isPrefixOf s then some (s.drop lit.length) else none

/-- One `re.sub` pass: `m prev suffix` returns, when the pattern matches at
this position, the replacement, the last original character of the matched
text (the `\b` context for what follows) and the rest of the input.  Fuel is
the input length; every match consumes at least one character. -/
def subAux (m : Option Char → List Char → Option (List Char × Char × List Char)) :
    Nat → Option Char → List Char → List Char
  | 0, _, s => s
  | _ + 1, _, [] => []
  | fuel + 1, prev, c :: rest =>
    match m prev (c :: rest) with
    | some (repl, lastc, rest2) => repl ++ subAux m fuel (some lastc) rest2
    | none => c :: subAux m fuel (some c) rest

def reSub (m : Option Char → List Char → Option (List Char × Char × List Char))
    (s : List Char) : List Char := subAux m s.length none s

/-- Matcher for `\b w1 [\s\-]* w2 \b` → `repl` (rules 1 and 2 of the table);
`lastc` is the final character of `w2`. -/
def matchTwoWords (w1 w2 repl : List Char) (lastc : Char)
    (prev : Option Char) (s : List Char) : Option (List Char × Char × List Char) :=
  if boundaryB prev then
    match dropLit w1 s with
    | some s1 =>
      match dropLit w2 (s1.dropWhile isSepChar) with
      | some s3 => if endBoundaryB s3 then some (repl, lastc, s3) else none
      | none => none
    | none => none
  else none

/-- Matcher for `\btopps? w2\b` → `repl` (rules 3 and 4): the greedy optional
`s` is tried first, falling back to the branch without it. -/
def matchToppsPhrase (w2 repl : List Char) (lastc : Char)
    (prev : Option Char) (s : List Char) : Option (List Char × Char × List Char) :=
  if boundaryB prev then
    match dropLit "topp".data s with
    | some s1 =>
      let withS : Option (List Char) :=
        match dropLit ('s' :: ' ' :: w2) s1 with
        | some r => if endBoundaryB r then some r else none
        | none => none
      match withS with
      | some r => some (repl, lastc, r)
      | none =>
        match dropLit (' ' :: w2) s1 with
        | some r => if endBoundaryB r then some (repl, lastc, r) else none
        | none => none
    | none => none
  else none

/-- Matcher for `[^a-z0-9]+` → `" "` (rule 5). -/
def matchPunctRun (_prev : Option Char) (s : List Char) :
    Option (List Char × Char × List Char) :=
  match s with
  | [] => none
  | c :: _ =>
    if isLowerAlnum c then none
    else
      let run := s.takeWhile (fun d => !isLowerAlnum d)
      some (" ".data, run.getLastD c, s.dropWhile (fun d => !isLowerAlnum d))

/-- Matcher for the final `\s+` → `" "` collapse. -/
def matchWSRun (_prev : Option Char) (s : List Char) :
    Option (List Char × Char × List Char) :=
  match s with
  | [] => none
  | c :: _ =>
    if isWSChar c then
      some (" ".data, (s.takeWhile isWSChar).getLastD c, s.dropWhile isWSChar)
    else none

/-- Python `str.strip()` over the modelled whitespace class. -/
def stripWS (s : List Char) : List Char :=
  ((s.dropWhile isWSChar).reverse.dropWhile isWSChar).reverse

/-- Embedding of `helpers_v10.normalize_title_global` with the built-in
normalization table (the injected `token_rules.json` part is empty). -/
def normalize_title_global (t : List Char) : List Char :=
  if t.isEmpty then []
  else
    let t0 := lowerStr t
    let t1 := reSub (matchTwoWords "sky".data "box".data "skybox".data 'x') t0
    let t2 := reSub (matchTwoWords "e".data "motion".data "e motion".data 'n') t1
    let t3 := reSub (matchToppsPhrase "chrome".data "topps chrome".data 'e') t2
    let t4 := reSub (matchToppsPhrase "finest".data "topps finest".data 't') t3
    let t5 := reSub matchPunctRun t4
    stripWS (reSub matchWSRun t5)

/-- Claim C8 (code bug): the title normalizer is not idempotent.  The brand
rules run before the punctuation-collapse rule, so on "sky.box" the first
pass only turns the dot into a space ("sky box"), and a second pass then
applies the sky-box rewrite, giving "skybox". -/
theorem c8_normalize_not_idempotent :
    normalize_title_global "sky.box".data = "sky box".data ∧
    normalize_title_global (normalize_title_global "sky.box".data) = "skybox".data ∧
    normalize_title_global (normalize_title_global "sky.box".data) ≠
      normalize_title_global "sky.box".data :=
  ⟨by decide, by decide, by decide⟩

/-!
Serial fragments (`pricing_engine._SERIAL_RE` and `_extract_serial_fragment`,
lines 412-430) and the serial check of `search_active` (line 2078).  The
pattern `(\d+\s*/\s*\d+|#\s*\d+\s*/\s*\d+)` is deterministic at each start
position (digits, whitespace and the slash are disjoint classes), so the
leftmost match is found by a single left-to-right scan.
-/

/-- ASCII digit test written on code points, matching the regex class `\d`. -/
def isDig (c : Char) : Bool := 48 ≤ c.toNat && c.toNat ≤ 57

/-- Try the first alternative `\\d+\\s*/\\s*\\d+` at this position; returns the
raw matched text. -/
def serialDigitsAt (s : List Char) : Option (List Char) :=
  match s with
  | [] => none
  | c :: _ =>
    if isDig c then
      let d1 := s.takeWhile isDig
      let r0 := s.dropWhile isDig
      let sp1 := r0.takeWhile isWSChar
      match r0.dropWhile isWSChar with
      | '/' :: r2 =>
        let sp2 := r2.takeWhile isWSChar
        let d2 := (r2.dropWhile isWSChar).takeWhile isDig
        if d2.isEmpty then none
        else some (d1 ++ sp1 ++ '/' :: (sp2 ++ d2))
      | _ => none
    else none

/-- Try the serial pattern at this position: the digit alternative first, then
the `#`-prefixed alternative (their start characters are disjoint). -/
def serialAt (s : List Char) : Option (List Char) :=
  match serialDigitsAt s with
  | some frag => some frag
  | none =>
    match s with
    | '#' :: rest =>
      let sp0 := rest.takeWhile isWSChar
      match serialDigitsAt (rest.dropWhile isWSChar) with
      | some frag => some ('#' :: (sp0 ++ frag))
      | none => none
    | _ => none

/-- Left-to-right scan for the leftmost serial match (`re.search`). -/
def serialScan : List Char → Option (List Char)
  | [] => none
  | c :: t =>
    match serialAt (c :: t) with
    | some frag => some frag
    | none => serialScan t

/-- Embedding of `pricing_engine._extract_serial_fragment`: leftmost match,
then `replace("#", "").replace(" ", "")` and `lower()`. -/
def extract_serial_fragment (title : List Char) : Option (List Char) :=
  if title.isEmpty then none
  else
    match serialScan title with
    | none => none
    | some frag => some (lowerStr (frag.filter (fun c => !(c = '#' || c = ' '))))

/-- The serial rejection test of `search_active` line 2078: a comp is given a
serial-mismatch reason iff both titles carry fragments and they differ. -/
def serial_rule_rejects (subject_title comp_title : List Char) : Bool :=
  match extract_serial_fragment subject_title, extract_serial_fragment comp_title with
  | some ss, some cs => decide (cs ≠ ss)
  | _, _ => false

/-- Counterexample for C4: the subject "card 12/99" carries the serial
fragment 12/99, the comp "base card" carries none, and the serial rule does
not reject the comp — so a comp can pass the serial stage without containing
the subject's fragment. -/
theorem c4_counterexample :
    extract_serial_fragment "card 12/99".data = some "12/99".data ∧
    extract_serial_fragment "base card".data = none ∧
    serial_rule_rejects "card 12/99".data "base card".data = false :=
  ⟨by decide, by decide, by decide⟩

/-- Claim C4 (amended): the serial rule rejects a comp only when both the
subject and the comp titles contain `n/d` fragments and the fragments differ
(after dropping `#` and spaces and lowercasing); a comp with no fragment is
never rejected by this rule, and if the subject has no fragment no comp is
ever rejected by this rule alone.  The concrete conjunct shows the
space-and-`#`-insensitive normalization of fragments. -/
theorem c4_serial_rule :
    (∀ s c : Str, extract_serial_fragment s = none → serial_rule_rejects s c = false) ∧
    (∀ s c : Str, extract_serial_fragment c = none → serial_rule_rejects s c = false) ∧
    (∀ (s c : Str) (f g : Str),
       extract_serial_fragment s = some f → extract_serial_fragment c = some g →
       (serial_rule_rejects s c = false ↔ g = f)) ∧
    extract_serial_fragment "ab #12 / 99".data = some "12/99".data := by
  refine ⟨?_, ?_, ?_, by decide⟩
  · intro s c hs
    simp [serial_rule_rejects, hs]
  · intro s c hc
    simp only [serial_rule_rejects, hc]
    rcases extract_serial_fragment s with _ | f <;> rfl
  · intro s c f g hs hc
    simp [serial_rule_rejects, hs, hc]

/-- Witness for C4: concrete applications of the amended serial rule. -/
theorem c4_serial_rule_witness :
    serial_rule_rejects "plain title".data "comp 3/4".data = false ∧
    (serial_rule_rejects "card 12/99".data "ab #12 / 99".data = false ↔
      ("12/99".data : Str) = "12/99".data) :=
  ⟨c4_serial_rule.1 "plain title".data "comp 3/4".data (by decide),
   c4_serial_rule.2.2.1 "card 12/99".data "ab #12 / 99".data "12/99".data "12/99".data
     (by decide) (by decide)⟩

/-!
Signature extraction (`helpers_v10.py` lines 456-624 and
`pricing_engine._extract_card_signature_from_title`, lines 1308-1365) and the
strict matcher (`pricing_engine._titles_match_strict`, lines 1735-1808).
`token_rules.json` is absent, so `TOKEN_RULES` is the in-code fallback
(`remove_words = []`, `player_suffixes = [jr, sr, ii, iii, iv]`,
`max_name_word_length = 4`); `set_phrases.json` and `brand_families.json` are
absent, so `SET_PHRASES`, `SET_PHRASE_INDEX` and `BRAND_FAMILIES` are empty.
-/

/-- Lowercase ASCII letter, the class `[a-z]`. -/
def isLowerAlpha (c : Char) : Bool := 97 ≤ c.toNat && c.toNat ≤ 122

/-- Python `str.upper()` (ASCII). -/
def upperStr (s : Str) : Str := s.map Char.toUpper

/-- Python `str.isdigit()` (ASCII): nonempty and all digits. -/
def pyIsDigit (w : Str) : Bool := !w.isEmpty && w.all isDig

/-- The capture `\s*([0-9]{1,4}[a-z]?)` shared by the card-number patterns:
optional whitespace, one to four digits (greedily), an optional letter. -/
def captureNum (r : Str) : Option Str :=
  let r1 := r.dropWhile isWSChar
  let ds := (r1.takeWhile isDig).take 4
  if ds.isEmpty then none
  else
    match r1.drop ds.length with
    | c :: _ => if isLowerAlpha c then some (ds ++ [c]) else some ds
    | [] => some ds

/-- Scan for `(?<!/)\#` followed by the number capture: a hash not directly
preceded by a slash.  On a failed capture the scan resumes at the next
position, as `re.search` does. -/
def scanHash : Option Char → Str → Option Str
  | _, [] => none
  | prev, c :: rest =>
    if c = '#' && !(prev = some '/') then
      match captureNum rest with
      | some cap => some cap
      | none => scanHash (some c) rest
    else scanHash (some c) rest

/-- The optional literal dot of `\bno\.?` (consumed when present; when the
dotted branch later fails, the dotless branch cannot succeed either, since
`\s*[0-9]` never matches a leading dot). -/
def stripDot : Str → Str
  | '.' :: r0 => r0
  | r => r

/-- Scan for `\bno\.?` followed by the number capture. -/
def scanNo : Option Char → Str → Option Str
  | _, [] => none
  | prev, 'n' :: 'o' :: rest =>
    if boundaryB prev then
      match captureNum (stripDot rest) with
      | some cap => some cap
      | none => scanNo (some 'n') ('o' :: rest)
    else scanNo (some 'n') ('o' :: rest)
  | _, c :: rest => scanNo (some c) rest

/-- The optional literal hash of `\bcard\s*#?\s*`. -/
def stripHash : Str → Str
  | '#' :: r0 => r0
  | r => r

/-- Scan for `\bcard\s*#?` followed by the number capture. -/
def scanCard : Option Char → Str → Option Str
  | _, [] => none
  | prev, 'c' :: 'a' :: 'r' :: 'd' :: rest =>
    if boundaryB prev then
      match captureNum (stripHash (rest.dropWhile isWSChar)) with
      | some cap => some cap
      | none => scanCard (some 'c') ('a' :: 'r' :: 'd' :: rest)
    else scanCard (some 'c') ('a' :: 'r' :: 'd' :: rest)
  | _, c :: rest => scanCard (some c) rest

/-- Embedding of `helpers_v10.extract_card_number_from_title`: the `#` rule
first, then the `no.` and `card` fallbacks, capture uppercased. -/
def extract_card_number_from_title (title : Str) : Option Str :=
  if title.isEmpty then none
  else
    let t := lowerStr title
    match scanHash none t with
    | some cap => some (upperStr cap)
    | none =>
      match scanNo none t with
      | some cap => some (upperStr cap)
      | none =>
        match scanCard none t with
        | some cap => some (upperStr cap)
        | none => none

/-- The year pattern `(19[0-9]{2}|20[0-4][0-9])` at one position. -/
def yearAt : Str → Option ℕ
  | c1 :: c2 :: c3 :: c4 :: _ =>
    if c1 = '1' && c2 = '9' && isDig c3 && isDig c4 then
      some (1900 + 10 * (c3.toNat - 48) + (c4.toNat - 48))
    else if c1 = '2' && c2 = '0' && (48 ≤ c3.toNat && c3.toNat ≤ 52) && isDig c4 then
      some (2000 + 10 * (c3.toNat - 48) + (c4.toNat - 48))
    else none
  | _ => none

/-- Leftmost year match. -/
def yearScan : Str → Option ℕ
  | [] => none
  | c :: t =>
    match yearAt (c :: t) with
    | some y => some y
    | none => yearScan t

/-- Embedding of `helpers_v10.extract_year_from_title`: searched on the
normalized title. -/
def extract_year_from_title (title : Str) : Option ℕ :=
  if title.isEmpty then none
  else yearScan (normalize_title_global title)

/-- Default `TOKEN_RULES["remove_words"]` (missing `token_rules.json`). -/
def TOKEN_REMOVE_WORDS : List Str := []

/-- Default `TOKEN_RULES["player_suffixes"]`. -/
def PLAYER_SUFFIXES : List Str :=
  ["jr".data, "sr".data, "ii".data, "iii".data, "iv".data]

/-- Default `TOKEN_RULES["max_name_word_length"]`. -/
def MAX_NAME_WORD_LENGTH : ℕ := 4

/-- Python `str.split()`: whitespace-separated words, empties dropped. -/
def wordsOf (s : Str) : List Str :=
  (s.splitOnP isWSChar).filter (fun w => !w.isEmpty)

/-- Embedding of `helpers_v10.extract_set_tokens`: `set_phrases.json` is
absent, so `SET_PHRASES` is the empty dict and the pattern loop never fires. -/
def extract_set_tokens (_title : Str) : List Str := []

/-- The generational-suffix glue loop of `extract_player_tokens_from_title`. -/
def glueSuffixes : List Str → List Str
  | [] => []
  | [w] => [w]
  | w :: w2 :: rest =>
    if PLAYER_SUFFIXES.contains w2 then (w ++ ' ' :: w2) :: glueSuffixes rest
    else w :: glueSuffixes (w2 :: rest)

/-- Embedding of `helpers_v10.extract_player_tokens_from_title`. -/
def extract_player_tokens_from_title (title : Str) : List Str :=
  let words := (wordsOf (normalize_title_global title)).filter (fun w =>
    !TOKEN_REMOVE_WORDS.contains w && !pyIsDigit w && w.length ≤ MAX_NAME_WORD_LENGTH)
  let words2 := words.filter (fun w => !(extract_set_tokens title).contains w)
  glueSuffixes words2

/-- The hardcoded parallel candidate list of
`helpers_v10.extract_parallels_from_title`. -/
def PARALLEL_KEYWORDS : List Str :=
  ["refractor".data, "xfractor".data, "mojo".data, "wave".data, "pulsar".data,
   "atomic".data, "prizm".data, "prism".data,
   "silver".data, "gold".data, "blue".data, "green".data, "red".data,
   "purple".data, "orange".data, "pink".data, "black".data, "white".data,
   "aqua".data, "teal".data, "lime".data, "rainbow".data, "holo".data, "foil".data]

/-- Embedding of `helpers_v10.extract_parallels_from_title` (the candidates
are distinct, so the dedupe pass is the identity). -/
def extract_parallels_from_title (title : Str) : List Str :=
  if title.isEmpty then []
  else PARALLEL_KEYWORDS.filter (fun w => substrB w (normalize_title_global title))

/-- Keyword list of `helpers_v10.detect_insert_flag`. -/
def INSERT_KEYWORDS : List Str :=
  ["insert".data, "inserts".data, "insert set".data, "inser".data, "subset".data]

/-- Keyword list of `helpers_v10.detect_promo_flag`. -/
def PROMO_KEYWORDS : List Str :=
  ["promo".data, "promotional".data, "sample".data, "proof".data,
   "test issue".data, "test card".data, "preview".data]

/-- Keyword list of `helpers_v10.detect_oddball_flag`. -/
def ODDBALL_KEYWORDS : List Str :=
  ["police".data, "cereal".data, "hostess".data, "post".data, "kelloggs".data,
   "dennys".data, "mcdonald".data, "izzy".data, "slurpee".data, "magazine".data,
   "book".data, "disc".data, "coin".data, "sticker".data, "food issue".data]

def detect_insert_flag (title : Str) : Bool :=
  !title.isEmpty && INSERT_KEYWORDS.any (fun k => substrB k (normalize_title_global title))

def detect_promo_flag (title : Str) : Bool :=
  !title.isEmpty && PROMO_KEYWORDS.any (fun k => substrB k (normalize_title_global title))

def detect_oddball_flag (title : Str) : Bool :=
  !title.isEmpty && ODDBALL_KEYWORDS.any (fun k => substrB k (normalize_title_global title))

/-- `BRAND_FAMILIES` as loaded by `pricing_engine._load_brand_families`:
`brand_families.json` is absent, so the list is empty. -/
def BRAND_FAMILIES_TABLE : List (Str × Str) := []

/-- The brand-family loop of `_extract_card_signature_from_title` (lines
1333-1347): first pattern that is a substring of the lowered normalized
title wins. -/
def brand_family_of (norm_title : Str) : Option Str :=
  BRAND_FAMILIES_TABLE.findSome? (fun pc =>
    if substrB pc.1 (lowerStr norm_title) then some pc.2 else none)

/-- `pricing_engine.detect_set_phrases_from_title`: returns `[]` at once
because `SET_PHRASE_INDEX` is empty (`set_phrases.json` absent, line 1261). -/
def detect_set_phrases_from_title (_title : Str) : List Str := []

/-- `pricing_engine.extract_set_phrase_from_title`: Python `max` with key
(token count, string length) and default `None`, keeping the first maximum. -/
def extract_set_phrase_from_title (title : Str) : Option Str :=
  (detect_set_phrases_from_title title).foldl
    (fun best p =>
      match best with
      | none => some p
      | some b =>
        if (wordsOf b).length < (wordsOf p).length ∨
           ((wordsOf b).length = (wordsOf p).length ∧ b.length < p.length) then some p
        else some b)
    none

/-- The signature dict of `_extract_card_signature_from_title`.  The Python
function returns the empty dict `{}` for a falsy title and a full dict
otherwise; `none` here is the empty dict. -/
structure Sig where
  year : Option ℕ
  card_num : Option Str
  player_tokens : List Str
  set_tokens : List Str
  parallels : List Str
  is_insert : Bool
  is_promo : Bool
  is_oddball : Bool
  brand_family : Option Str
  set_phrase : Option Str
deriving DecidableEq

/-- Embedding of `pricing_engine._extract_card_signature_from_title`. -/
def extract_card_signature_from_title (title : Str) : Option Sig :=
  if title.isEmpty then none
  else some ⟨extract_year_from_title title,
             extract_card_number_from_title title,
             extract_player_tokens_from_title title,
             extract_set_tokens title,
             extract_parallels_from_title title,
             detect_insert_flag title,
             detect_promo_flag title,
             detect_oddball_flag title,
             brand_family_of (normalize_title_global title),
             extract_set_phrase_from_title title⟩

/-- Python truthiness mismatch `sy and cy and sy != cy` for optional fields. -/
def bothSomeNe {α : Type} [DecidableEq α] : Option α → Option α → Bool
  | some a, some b => decide (a ≠ b)
  | _, _ => false

/-- The set-phrase stage of `_titles_match_strict` (lines 1780-1787). -/
def setPhraseOk (s c : Sig) : Bool :=
  match s.set_phrase with
  | none => true
  | some sp =>
    match c.set_phrase with
    | none => false
    | some cp2 => decide (normalize_title_global sp = normalize_title_global cp2)

/-- The parallels stage (lines 1789-1793): checked only when both sets are
non-empty, and then the subject's parallels must all occur in the comp's. -/
def parallelsOk (s c : Sig) : Bool :=
  !(!s.parallels.isEmpty && (!c.parallels.isEmpty &&
    !(s.parallels.all (fun w => c.parallels.contains w))))

/-- The flag stage (lines 1795-1800): the extractor always produces booleans,
so the `is not None` guards of the source always hold and the flags must be
equal. -/
def flagsOk (s c : Sig) : Bool :=
  decide (s.is_insert = c.is_insert) && decide (s.is_promo = c.is_promo) &&
    decide (s.is_oddball = c.is_oddball)

/-- The player-overlap stage (lines 1802-1806). -/
def playersOk (s c : Sig) : Bool :=
  !(!s.player_tokens.isEmpty && (!c.player_tokens.isEmpty &&
    s.player_tokens.all (fun w => !c.player_tokens.contains w)))

/-- Embedding of `pricing_engine._titles_match_strict`.  The `comp_price`
parameter is accepted and ignored exactly as in the source. -/
def titles_match_strict (subject_sig : Option Sig) (comp_title : Str)
    (_comp_price : ℚ) : Bool :=
  match subject_sig with
  | none => true
  | some s =>
    match extract_card_signature_from_title comp_title with
    | none => false
    | some c =>
      !bothSomeNe s.year c.year &&
      (!bothSomeNe s.card_num c.card_num &&
      (!bothSomeNe s.brand_family c.brand_family &&
      (setPhraseOk s c &&
      (parallelsOk s c &&
      (flagsOk s c && playersOk s c)))))

/-- Counterexample for C3: the non-empty title "12345" has no extractable
field, yet its signature is the full all-unset dict (not the empty signature
`{}` = `none`), and signature filtering is not disabled for it: a comp whose
title sets the insert flag ("insert") is rejected by the flag stage. -/
theorem c3_counterexample :
    extract_card_signature_from_title "12345".data =
      some ⟨none, none, [], [], [], false, false, false, none, none⟩ ∧
    titles_match_strict (extract_card_signature_from_title "12345".data)
      "insert".data 5 = false :=
  ⟨by decide, by decide⟩

/-- Claim C3 (amended): the extractor returns the empty signature exactly for
the empty (falsy) subject title, and for the empty signature every comp
passes signature matching; a non-empty title with no extractable fields
instead yields a signature with all fields unset, which still participates in
filtering (its insert/promo/oddball booleans count as an opinion). -/
theorem c3_empty_signature :
    (∀ t : Str, extract_card_signature_from_title t = none ↔ t = []) ∧
    (∀ (ct : Str) (p : ℚ), titles_match_strict none ct p = true) := by
  constructor
  · intro t
    cases t <;> simp [extract_card_signature_from_title]
  · intro ct p
    rfl

/-- Witness for C3: the empty signature lets a concrete comp pass. -/
theorem c3_empty_signature_witness :
    titles_match_strict none "any comp".data 3 = true :=
  c3_empty_signature.2 "any comp".data 3

/-- Counterexample for C5: the subject "cruz gold" has the non-empty parallel
set `[gold]`, the comp "cruz" extracts no parallels at all, and yet the comp
passes strict signature matching — the superset requirement is skipped when
the comp side is empty. -/
theorem c5_counterexample :
    titles_match_strict (extract_card_signature_from_title "cruz gold".data)
      "cruz".data 5 = true ∧
    (extract_card_signature_from_title "cruz gold".data).map Sig.parallels =
      some ["gold".data] ∧
    (extract_card_signature_from_title "cruz".data).map Sig.parallels = some [] :=
  ⟨by decide, by decide, by decide⟩

/-- Claim C5 (amended): the comp-parallels-superset requirement holds only
when both sides are non-empty: whenever a comp passes strict matching and
both the subject's and the comp's parallel sets are non-empty, every subject
parallel occurs among the comp's parallels; a comp with no recognized
parallels bypasses the check entirely. -/
theorem c5_parallel_superset (s : Sig) (ct : Str) (p : ℚ) (c : Sig)
    (hm : titles_match_strict (some s) ct p = true)
    (hc : extract_card_signature_from_title ct = some c)
    (hs : s.parallels ≠ []) (hcp : c.parallels ≠ []) :
    ∀ w ∈ s.parallels, w ∈ c.parallels := by
  rw [titles_match_strict, hc] at hm
  simp only [Bool.and_eq_true] at hm
  have hpar := hm.2.2.2.2.1
  rw [parallelsOk] at hpar
  have hse : s.parallels.isEmpty = false := by
    cases hsp : s.parallels with
    | nil => exact absurd hsp hs
    | cons a l => simp
  have hce : c.parallels.isEmpty = false := by
    cases hcpp : c.parallels with
    | nil => exact absurd hcpp hcp
    | cons a l => simp
  rw [hse, hce] at hpar
  simp only [Bool.not_false, Bool.true_and, Bool.not_not] at hpar
  intro w hw
  have := List.all_eq_true.mp hpar w hw
  simpa using this

/-- Witness for C5: a subject with a gold parallel matched against a comp
that also extracts gold. -/
theorem c5_parallel_superset_witness :
    "gold".data ∈ (⟨none, none, ["cruz".data, "gold".data], [], ["gold".data],
      false, false, false, none, none⟩ : Sig).parallels :=
  c5_parallel_superset
    ⟨none, none, ["gold".data], [], ["gold".data], false, false, false, none, none⟩
    "cruz gold".data 5
    ⟨none, none, ["cruz".data, "gold".data], [], ["gold".data],
      false, false, false, none, none⟩
    (by decide) (by decide) (by decide) (by decide) "gold".data (by decide)

def DIGITS : List Char := ['0', '1', '2', '3', '4', '5', '6', '7', '8', '9']

theorem digit_char_facts :
    ∀ c ∈ DIGITS, isDig c = true ∧ Char.toLower c = c ∧ Char.toUpper c = c ∧
      isWSChar c = false ∧ isLowerAlpha c = false := by decide

theorem takeWhile_digits_slash (R : Str) :
    ∀ (d : Str), (∀ c ∈ d, c ∈ DIGITS) →
      List.takeWhile isDig (d ++ '/' :: R) = d := by
  intro d
  induction d with
  | nil =>
    intro _
    rw [List.nil_append, List.takeWhile_cons]
    rw [show isDig '/' = false from by decide]
    simp
  | cons a t ih =>
    intro hd
    have ha := (digit_char_facts a (hd a (by simp))).1
    rw [List.cons_append, List.takeWhile_cons, ha]
    simp [ih (fun c hc => hd c (by simp [hc]))]

theorem captureNum_digits (c0 : Char) (d0 R : Str) (hlen : (c0 :: d0).length ≤ 4)
    (hd : ∀ c ∈ (c0 :: d0), c ∈ DIGITS) :
    captureNum ((c0 :: d0) ++ '/' :: R) = some (c0 :: d0) := by
  have hws : isWSChar c0 = false := (digit_char_facts c0 (hd c0 (by simp))).2.2.2.1
  have h1 : ((c0 :: d0) ++ '/' :: R).dropWhile isWSChar = (c0 :: d0) ++ '/' :: R := by
    rw [List.cons_append, List.dropWhile_cons, hws]
    simp
  have h2 : List.takeWhile isDig ((c0 :: d0) ++ '/' :: R) = c0 :: d0 :=
    takeWhile_digits_slash R (c0 :: d0) hd
  have h3 : List.take 4 (c0 :: d0) = c0 :: d0 := List.take_of_length_le hlen
  have h4 : ((c0 :: d0) ++ '/' :: R).drop (c0 :: d0).length = '/' :: R :=
    List.drop_left (c0 :: d0) ('/' :: R)
  rw [captureNum, h1, h2, h3]
  rw [show (c0 :: d0).isEmpty = false from rfl]
  rw [h4]
  simp [show isLowerAlpha '/' = false from by decide]

theorem upper_digits (d : Str) (hd : ∀ c ∈ d, c ∈ DIGITS) : upperStr d = d := by
  induction d with
  | nil => rfl
  | cons a t ih =>
    have ha := (digit_char_facts a (hd a (by simp))).2.2.1
    simp only [upperStr, List.map_cons, ha]
    have := ih (fun c hc => hd c (by simp [hc]))
    simpa [upperStr] using this

theorem lower_digits (d : Str) (hd : ∀ c ∈ d, c ∈ DIGITS) : lowerStr d = d := by
  induction d with
  | nil => rfl
  | cons a t ih =>
    have ha := (digit_char_facts a (hd a (by simp))).2.1
    simp only [lowerStr, List.map_cons, ha]
    have := ih (fun c hc => hd c (by simp [hc]))
    simpa [lowerStr] using this

theorem captureNum_digits_cons (c0 : Char) (d0 R : Str) (hlen : (c0 :: d0).length ≤ 4)
    (hd : ∀ c ∈ (c0 :: d0), c ∈ DIGITS) :
    captureNum (c0 :: (d0 ++ '/' :: R)) = some (c0 :: d0) :=
  captureNum_digits c0 d0 R hlen hd

theorem scanHash_skip (prev : Option Char) (c : Char) (rest : Str)
    (h : (decide (c = '#') && !decide (prev = some '/')) = false) :
    scanHash prev (c :: rest) = scanHash (some c) rest := by
  rw [scanHash, h]
  simp

theorem c7_numerator_general (d : Str) (hne : d ≠ []) (hlen : d.length ≤ 4)
    (hd : ∀ c ∈ d, c ∈ DIGITS) :
    extract_card_number_from_title ("2020 hoops #".data ++ d ++ "/99".data) = some d := by
  obtain ⟨c0, d0, rfl⟩ := List.exists_cons_of_ne_nil hne
  have hscan : scanHash none (lowerStr ("2020 hoops #".data ++ (c0 :: d0) ++ "/99".data))
      = some (c0 :: d0) := by
    rw [show lowerStr ("2020 hoops #".data ++ (c0 :: d0) ++ "/99".data)
        = '2' :: '0' :: '2' :: '0' :: ' ' :: 'h' :: 'o' :: 'o' :: 'p' :: 's' :: ' ' :: '#' ::
          (c0 :: (d0 ++ '/' :: '9' :: '9' :: [])) from by
      simp only [lowerStr, List.map_append]
      rw [show List.map Char.toLower "2020 hoops #".data
          = '2' :: '0' :: '2' :: '0' :: ' ' :: 'h' :: 'o' :: 'o' :: 'p' :: 's' :: ' ' :: '#' :: []
          from by decide]
      rw [show List.map Char.toLower "/99".data = '/' :: '9' :: '9' :: [] from by decide]
      rw [show List.map Char.toLower (c0 :: d0) = c0 :: d0 from lower_digits (c0 :: d0) hd]
      simp]
    rw [scanHash_skip _ _ _ (by decide), scanHash_skip _ _ _ (by decide),
      scanHash_skip _ _ _ (by decide), scanHash_skip _ _ _ (by decide),
      scanHash_skip _ _ _ (by decide), scanHash_skip _ _ _ (by decide),
      scanHash_skip _ _ _ (by decide), scanHash_skip _ _ _ (by decide),
      scanHash_skip _ _ _ (by decide), scanHash_skip _ _ _ (by decide),
      scanHash_skip _ _ _ (by decide)]
    rw [scanHash, show (decide ('#' = '#') && !decide ((some ' ' : Option Char) = some '/'))
        = true from by decide]
    rw [if_pos rfl]
    rw [captureNum_digits_cons c0 d0 ('9' :: '9' :: []) hlen hd]
  rw [extract_card_number_from_title, if_neg (by simp)]
  simp only [hscan]
  rw [upper_digits (c0 :: d0) hd]

/-- Counterexample for C7: in "2020 hoops #12/99" the `#12` token is
immediately followed by `/99` — it is the numerator of the serial fragment
12/99 — and the extractor still returns card number "12", which the claim
says never happens. -/
theorem c7_counterexample :
    extract_serial_fragment "2020 hoops #12/99".data = some "12/99".data ∧
    extract_card_number_from_title "2020 hoops #12/99".data = some "12".data :=
  ⟨by decide, by decide⟩

/-- Claim C7 (amended): the `#` rule only refuses a `#` directly preceded by
`/` (the `#/5000` style yields no `#`-match); a `#digits` token immediately
followed by `/digits` IS returned as the card number — for every 1-to-4-digit
numerator `d`, the title `2020 hoops #d/99` yields card number `d`.  The
`No. <digits>` and `Card <digits>` patterns serve as fallbacks. -/
theorem c7_card_number :
    (∀ d : Str, d ≠ [] → d.length ≤ 4 → (∀ c ∈ d, c ∈ DIGITS) →
      extract_card_number_from_title ("2020 hoops #".data ++ d ++ "/99".data) = some d) ∧
    extract_card_number_from_title "#/5000".data = none ∧
    extract_card_number_from_title "topps no. 8".data = some "8".data ∧
    extract_card_number_from_title "topps card 8".data = some "8".data :=
  ⟨c7_numerator_general, by decide, by decide, by decide⟩

/-- Witness for C7 at the numerator 12. -/
theorem c7_card_number_witness :
    extract_card_number_from_title ("2020 hoops #".data ++ "12".data ++ "/99".data) =
      some "12".data :=
  c7_card_number.1 "12".data (by decide) (by decide) (by decide)

theorem captureNum_length (r : Str) (cap : Str) (h : captureNum r = some cap) :
    1 ≤ cap.length ∧ cap.length ≤ 5 := by
  rw [captureNum] at h
  set r1 := r.dropWhile isWSChar with hr1
  set ds := (r1.takeWhile isDig).take 4 with hds
  have hdsle : ds.length ≤ 4 := by
    rw [hds]
    simp [List.length_take]
  by_cases he : ds.isEmpty
  · rw [if_pos he] at h
    exact absurd h (by simp)
  · rw [if_neg he] at h
    have hne : 1 ≤ ds.length := by
      cases hd : ds with
      | nil => rw [hd] at he; simp at he
      | cons a l => simp [hd]
    rcases hmatch : r1.drop ds.length with _ | ⟨c, rest⟩
    · rw [hmatch] at h
      obtain rfl : ds = cap := by simpa using h
      omega
    · rw [hmatch] at h
      dsimp only at h
      by_cases hla : isLowerAlpha c
      · rw [if_pos hla] at h
        obtain rfl : ds ++ [c] = cap := by simpa using h
        simp only [List.length_append, List.length_cons, List.length_nil]
        omega
      · rw [if_neg hla] at h
        obtain rfl : ds = cap := by simpa using h
        omega

theorem scanHash_length : ∀ (s : Str) (prev : Option Char) (cap : Str),
    scanHash prev s = some cap → 1 ≤ cap.length ∧ cap.length ≤ 5 := by
  intro s
  induction s with
  | nil => intro prev cap h; exact absurd h (by simp [scanHash])
  | cons c rest ih =>
    intro prev cap h
    rw [scanHash] at h
    by_cases hc : (c = '#' && !decide (prev = some '/')) = true
    · rw [if_pos hc] at h
      rcases hcap : captureNum rest with _ | cap2
      · rw [hcap] at h
        exact ih (some c) cap h
      · rw [hcap] at h
        obtain rfl : cap2 = cap := by simpa using h
        exact captureNum_length rest cap2 hcap
    · rw [if_neg hc] at h
      exact ih (some c) cap h

theorem scanNo_length : ∀ (prev : Option Char) (s : Str) (cap : Str),
    scanNo prev s = some cap → 1 ≤ cap.length ∧ cap.length ≤ 5 := by
  intro prev s
  induction prev, s using scanNo.induct with
  | case1 x => intro cap h; exact absurd h (by simp [scanNo])
  | case2 prev rest hb cap hcap =>
    intro cap2 h
    rw [scanNo, if_pos hb, hcap] at h
    obtain rfl : cap = cap2 := by simpa using h
    exact captureNum_length _ cap hcap
  | case3 prev rest hb hnone ih =>
    intro cap h
    rw [scanNo, if_pos hb, hnone] at h
    exact ih cap h
  | case4 prev rest hb ih =>
    intro cap h
    rw [scanNo, if_neg hb] at h
    exact ih cap h
  | case5 x c rest hne ih =>
    intro cap h
    rw [scanNo] at h
    exacts [ih cap h, hne]

theorem scanCard_length : ∀ (prev : Option Char) (s : Str) (cap : Str),
    scanCard prev s = some cap → 1 ≤ cap.length ∧ cap.length ≤ 5 := by
  intro prev s
  induction prev, s using scanCard.induct with
  | case1 x => intro cap h; exact absurd h (by simp [scanCard])
  | case2 prev rest hb cap hcap =>
    intro cap2 h
    rw [scanCard, if_pos hb, hcap] at h
    obtain rfl : cap = cap2 := by simpa using h
    exact captureNum_length _ cap hcap
  | case3 prev rest hb hnone ih =>
    intro cap h
    rw [scanCard, if_pos hb, hnone] at h
    exact ih cap h
  | case4 prev rest hb ih =>
    intro cap h
    rw [scanCard, if_neg hb] at h
    exact ih cap h
  | case5 x c rest hne ih =>
    intro cap h
    rw [scanCard] at h
    exacts [ih cap h, hne]

theorem yearAt_bound : ∀ (s : Str) (y : ℕ), yearAt s = some y → 1900 ≤ y ∧ y ≤ 2049 := by
  intro s y h
  rcases s with _ | ⟨c1, s1⟩
  · exact absurd h (by simp [yearAt])
  rcases s1 with _ | ⟨c2, s2⟩
  · exact absurd h (by simp [yearAt])
  rcases s2 with _ | ⟨c3, s3⟩
  · exact absurd h (by simp [yearAt])
  rcases s3 with _ | ⟨c4, rest⟩
  · exact absurd h (by simp [yearAt])
  rw [yearAt] at h
  split_ifs at h with h1 h2
  · simp only [isDig, Bool.and_eq_true, decide_eq_true_iff] at h1
    obtain rfl : 1900 + 10 * (c3.toNat - 48) + (c4.toNat - 48) = y := by simpa using h
    omega
  · simp only [isDig, Bool.and_eq_true, decide_eq_true_iff] at h2
    obtain rfl : 2000 + 10 * (c3.toNat - 48) + (c4.toNat - 48) = y := by simpa using h
    omega

theorem yearScan_bound : ∀ (s : Str) (y : ℕ),
    yearScan s = some y → 1900 ≤ y ∧ y ≤ 2049 := by
  intro s
  induction s with
  | nil => intro y h; exact absurd h (by simp [yearScan])
  | cons c t ih =>
    intro y h
    rw [yearScan] at h
    rcases hy : yearAt (c :: t) with _ | y2
    · rw [hy] at h
      exact ih y h
    · rw [hy] at h
      obtain rfl : y2 = y := by simpa using h
      exact yearAt_bound (c :: t) y2 hy

theorem wordsOf_ne_nil (s : Str) : ∀ w ∈ wordsOf s, w ≠ [] := by
  intro w hw
  have := (List.mem_filter.mp hw).2
  intro he
  rw [he] at this
  simp at this

theorem glueSuffixes_ne_nil : ∀ (l : List Str), (∀ w ∈ l, w ≠ []) →
    ∀ w ∈ glueSuffixes l, w ≠ [] := by
  intro l
  induction l using glueSuffixes.induct with
  | case1 => intro _ w hw; simp [glueSuffixes] at hw
  | case2 a =>
    intro hl w hw
    rw [glueSuffixes] at hw
    simp only [List.mem_singleton] at hw
    subst hw
    exact hl w (by simp)
  | case3 a b rest hsuf ih =>
    intro hl w hw
    rw [glueSuffixes, if_pos hsuf] at hw
    rcases List.mem_cons.mp hw with rfl | hw2
    · simp
    · exact ih (fun v hv => hl v (List.mem_cons_of_mem _ (List.mem_cons_of_mem _ hv))) w hw2
  | case4 a b rest hsuf ih =>
    intro hl w hw
    rw [glueSuffixes, if_neg hsuf] at hw
    rcases List.mem_cons.mp hw with rfl | hw2
    · exact hl w (by simp)
    · exact ih (fun v hv => hl v (List.mem_cons_of_mem _ hv)) w hw2

theorem extract_player_tokens_ne_nil (title : Str) :
    ∀ w ∈ extract_player_tokens_from_title title, w ≠ [] := by
  intro w hw
  rw [extract_player_tokens_from_title] at hw
  refine glueSuffixes_ne_nil _ ?_ w hw
  intro v hv
  have hv2 := List.mem_filter.mp hv
  have hv3 := List.mem_filter.mp hv2.1
  exact wordsOf_ne_nil _ v hv3.1

/-- Well-formedness of an extracted signature: the year (when present) is in
the [1900, 2049] range the regex admits, the card number is a 1-to-5
character capture, player tokens are never empty, and every parallel comes
from the hardcoded candidate list. -/
def SigWF (s : Sig) : Prop :=
  (∀ y, s.year = some y → 1900 ≤ y ∧ y ≤ 2049) ∧
  (∀ cn, s.card_num = some cn → 1 ≤ cn.length ∧ cn.length ≤ 5) ∧
  (∀ w ∈ s.player_tokens, w ≠ []) ∧
  (∀ p ∈ s.parallels, p ∈ PARALLEL_KEYWORDS)

/-- Well-formedness of the extractor result: the empty signature (for the
empty title) is trivially well-formed. -/
def SigWFOpt : Option Sig → Prop
  | none => True
  | some s => SigWF s

theorem extract_year_bound (title : Str) (y : ℕ)
    (h : extract_year_from_title title = some y) : 1900 ≤ y ∧ y ≤ 2049 := by
  rw [extract_year_from_title] at h
  by_cases he : title.isEmpty
  · rw [if_pos he] at h
    exact absurd h (by simp)
  · rw [if_neg he] at h
    exact yearScan_bound _ y h

theorem extract_card_number_length (title : Str) (cn : Str)
    (h : extract_card_number_from_title title = some cn) :
    1 ≤ cn.length ∧ cn.length ≤ 5 := by
  rw [extract_card_number_from_title] at h
  by_cases he : title.isEmpty
  · rw [if_pos he] at h
    exact absurd h (by simp)
  · rw [if_neg he] at h
    dsimp only at h
    rcases h1 : scanHash none (lowerStr title) with _ | cap1
    · rw [h1] at h
      rcases h2 : scanNo none (lowerStr title) with _ | cap2
      · rw [h2] at h
        rcases h3 : scanCard none (lowerStr title) with _ | cap3
        · rw [h3] at h
          exact absurd h (by simp)
        · rw [h3] at h
          obtain rfl : upperStr cap3 = cn := by simpa using h
          have := scanCard_length none (lowerStr title) cap3 h3
          simpa [upperStr] using this
      · rw [h2] at h
        obtain rfl : upperStr cap2 = cn := by simpa using h
        have := scanNo_length none (lowerStr title) cap2 h2
        simpa [upperStr] using this
    · rw [h1] at h
      obtain rfl : upperStr cap1 = cn := by simpa using h
      have := scanHash_length (lowerStr title) none cap1 h1
      simpa [upperStr] using this

/-- Claim C9: signature extraction is total and well-formed on every input
string (including the empty string, non-ASCII text and purely numeric text):
the extractor returns the empty signature exactly for the empty title and
otherwise a signature whose fields satisfy `SigWF`; every stage that cannot
resolve a field leaves it unset and processing continues — there is no
failing path in the embedded pipeline. -/
theorem c9_extraction_total (t : Str) :
    SigWFOpt (extract_card_signature_from_title t) ∧
    (extract_card_signature_from_title t = none ↔ t = []) := by
  constructor
  · rw [extract_card_signature_from_title]
    by_cases he : t.isEmpty
    · rw [if_pos he]
      exact trivial
    · rw [if_neg he]
      refine ⟨?_, ?_, ?_, ?_⟩
      · intro y hy
        exact extract_year_bound t y hy
      · intro cn hcn
        exact extract_card_number_length t cn hcn
      · exact extract_player_tokens_ne_nil t
      · intro p hp
        rw [extract_parallels_from_title, if_neg he] at hp
        exact (List.mem_filter.mp hp).1
  · rw [extract_card_signature_from_title]
    by_cases he : t.isEmpty
    · rw [if_pos he]
      simpa using he
    · rw [if_neg he]
      constructor
      · intro hc
        exact absurd hc (by simp)
      · intro ht
        rw [ht] at he
        simp at he

/-- Witness for C9: the extractor on a purely numeric title. -/
theorem c9_extraction_total_witness :
    SigWFOpt (extract_card_signature_from_title "12345".data) :=
  (c9_extraction_total "12345".data).1
